import Mathlib

/-!
Verification development for the camera-acquisition core of the
harvesters GUI repository (src/util_harvesters/image_buffer.py).

The Python module is shallowly embedded below:
  * `_BufferPool` (the process-wide in-flight buffer counter) as pure
    functions on an `Int` counter, with Python `assert` failures modelled
    as `Except.error`;
  * `ImageBuffer` (frame handle) as a structure with an optional payload
    component, `release` and the `image` pixel normalizer as functions
    returning `Except String _` (a raised Python exception) of
    `Option _` (the implicit `None` returns for unsupported formats);
  * `ImageReaderThread.run` as a step function `loop` over a list of
    per-iteration environments describing what the camera reports, with
    an event trace recording hardware calls and emitted Qt signals.
-/

instance {ε α : Type} [DecidableEq ε] [DecidableEq α] : DecidableEq (Except ε α) :=
  fun x y =>
    match x, y with
    | Except.error a, Except.error b =>
      if h : a = b then isTrue (h ▸ rfl) else isFalse fun hh => h (by injection hh)
    | Except.error _, Except.ok _ => isFalse fun hh => Except.noConfusion hh
    | Except.ok _, Except.error _ => isFalse fun hh => Except.noConfusion hh
    | Except.ok a, Except.ok b =>
      if h : a = b then isTrue (h ▸ rfl) else isFalse fun hh => h (by injection hh)

/-- Classification of a pixel format by the harvesters pfnc format lists
(mono_location_formats, bayer_location_formats, rgb_formats,
rgba_formats, bgr_formats, bgra_formats).  The lists are pairwise
disjoint; a format belonging to none of them falls in `other`. -/
inductive FormatClass where
  | mono | bayer | rgb | rgba | bgr | bgra | other
deriving DecidableEq

/-- A pixel format together with what the harvesters helpers report for
it: `is_custom`, `get_bits_per_pixel` (`none` when unknown), and the
format list it belongs to. -/
structure DataFormat where
  isCustom : Bool
  bpp : Option Nat
  cls : FormatClass
deriving DecidableEq

/-- The first component of a buffer payload: dimensions, format, channel
count, and the raw sample values (`component.data` as a flat array).
Samples are modelled as `Nat`; the numpy arrays involved carry unsigned
integer samples, for which the float division by a power of two in the
code is exact, so Nat division models it faithfully. -/
structure Component where
  width : Nat
  height : Nat
  data_format : DataFormat
  num_components_per_pixel : Nat
  data : List Nat
deriving DecidableEq

/-- Embeds `_BufferPool.increment`. -/
def _BufferPool.increment (c : Int) : Int := c + 1

/-- Embeds `_BufferPool.decrement`: the Python assert that the count is
positive becomes an `Except.error` (an AssertionError). -/
def _BufferPool.decrement (c : Int) : Except String Int :=
  if 0 < c then Except.ok (c - 1)
  else Except.error "AssertionError: buffers_in_use greater than 0"

/-- Embeds the `buffers_in_use` property: asserts the count is
nonnegative, then reports whether it is positive. -/
def _BufferPool.buffersInUse (c : Int) : Except String Bool :=
  if 0 ≤ c then Except.ok (decide (0 < c))
  else Except.error "AssertionError: buffers_in_use nonnegative"

/-- Embeds `_BufferPool.reset`: zero the counter whatever it was. -/
def _BufferPool.reset (_c : Int) : Int := 0

/-- Embeds the `ImageBuffer` frame handle: the sequence index `i` and
the owned buffer, `none` once released (Python sets `_buffer = None`). -/
structure ImageBuffer where
  i : Nat
  buffer : Option Component
deriving DecidableEq

/-- Embeds `ImageBuffer.release`: decrement the pool (assert guarded),
requeue the buffer (`self._buffer.queue()`, an AttributeError when the
buffer is already `None`), and clear the buffer reference.  Returns the
updated handle, the updated pool count, and the requeued buffer. -/
def ImageBuffer.release (b : ImageBuffer) (pool : Int) :
    Except String (ImageBuffer × Int × Component) :=
  match _BufferPool.decrement pool with
  | Except.error e => Except.error e
  | Except.ok pool2 =>
    match b.buffer with
    | none => Except.error "AttributeError: NoneType has no attribute queue"
    | some buf => Except.ok ({ b with buffer := none }, pool2, buf)

/-- Splits a list into `k` consecutive groups of `n` elements (the row
grouping performed by a numpy reshape; callers check that the length is
exactly `k * n`). -/
def splitInto {α : Type} (k n : Nat) (l : List α) : List (List α) :=
  match k with
  | 0 => []
  | k + 1 => l.take n :: splitInto k n (l.drop n)

/-- A numpy ndarray of samples as produced by the reshape calls in
`ImageBuffer.image`: 2-dimensional in the mono/Bayer branch,
3-dimensional in the RGB-family branch, together with its shape. -/
inductive NDContent where
  | two (h w : Nat) (g : List (List Nat))
  | three (h w n : Nat) (g : List (List (List Nat)))
deriving DecidableEq

/-- Embeds `component.data.reshape(height, width)`: fails with a
ValueError unless the length matches. -/
def reshape2 (data : List Nat) (h w : Nat) : Except String NDContent :=
  if data.length = h * w then Except.ok (NDContent.two h w (splitInto h w data))
  else Except.error "ValueError: cannot reshape array"

/-- Embeds `component.data.reshape(height, width, n)`. -/
def reshape3 (data : List Nat) (h w n : Nat) : Except String NDContent :=
  if data.length = h * w * n then
    Except.ok (NDContent.three h w n (splitInto h w (splitInto (h * w) n data)))
  else Except.error "ValueError: cannot reshape array"

/-- Embeds the logical content of the numpy slice `content[:, :, ::-1]`
used to swap R and B: the innermost axis reversed.  The slice is a
negative-stride view — no bytes move in memory — so the result is not
C-contiguous; `ImageBuffer.image` tracks that separately with a Bool. -/
def NDContent.reverseLastAxis : NDContent → NDContent
  | NDContent.two h w g => NDContent.two h w (g.map List.reverse)
  | NDContent.three h w n g => NDContent.three h w n (g.map (List.map List.reverse))

/-- Embeds the elementwise 8-bit conversion `content / (2 ** exponent)`
followed by `astype(np.uint8)`: applies `f` to every sample. -/
def NDContent.mapSamples (f : Nat → Nat) : NDContent → NDContent
  | NDContent.two h w g => NDContent.two h w (g.map (List.map f))
  | NDContent.three h w n g => NDContent.three h w n (g.map (List.map (List.map f)))

/-- Embeds the triple unpacking of `content.shape` into
`height2, width2, _`: a 2-dimensional array has only two shape entries,
so Python raises a ValueError there. -/
def NDContent.unpackShape3 : NDContent → Except String (Nat × Nat)
  | NDContent.two _ _ _ =>
    Except.error "ValueError: not enough values to unpack, expected 3 got 2"
  | NDContent.three h w _ _ => Except.ok (h, w)

/-- Row-major (logical-order) flattening of the array.  For a
C-contiguous array this is exactly the byte sequence `QImage` reads from
`content.data`; `ImageBuffer.image` only builds a `QImage` from it in
that case — a non-contiguous view's buffer is rejected by the
constructor instead. -/
def NDContent.flatten : NDContent → List Nat
  | NDContent.two _ _ g => g.flatten
  | NDContent.three _ _ _ g => (g.map List.flatten).flatten

/-- The `QImage` constructed at the end of `ImageBuffer.image`: pixel
bytes, dimensions and the bytes-per-line stride passed to the
constructor; the format argument is always `QImage.Format_RGB888`. -/
structure QImageModel where
  width : Nat
  height : Nat
  bytesPerLine : Nat
  data : List Nat
deriving DecidableEq

/-- The reshape phase of `ImageBuffer.image`: picks the branch from the
format-list membership tests, reshapes, and swaps R and B for the
`bgr_formats` (and only those).  The Bool paired with the array records
C-contiguity: the reshapes of the 1-d data are contiguous views, while
the BGR swap `content[:, :, ::-1]` is a negative-stride view that moves
no bytes and is therefore not C-contiguous.  `Except.ok none` is the
implicit `None` return for a format in none of the lists. -/
def imageReshaped (c : Component) : Except String (Option (NDContent × Bool)) :=
  if c.data_format.cls = FormatClass.mono ∨
      c.data_format.cls = FormatClass.bayer then
    (reshape2 c.data c.height c.width).map (fun content => some (content, true))
  else
    if c.data_format.cls = FormatClass.rgb ∨
        c.data_format.cls = FormatClass.rgba ∨
        c.data_format.cls = FormatClass.bgr ∨
        c.data_format.cls = FormatClass.bgra then
      (reshape3 c.data c.height c.width c.num_components_per_pixel).map
        (fun content =>
          some (if c.data_format.cls = FormatClass.bgr then
            (content.reverseLastAxis, false) else (content, true)))
    else Except.ok none

/-- The conversion-and-QImage phase of `ImageBuffer.image`: when
`exponent = bpp - 8` is positive, `content / (2 ** exponent)` and the
`astype(np.uint8)` cast allocate fresh C-contiguous arrays holding the
logical (post-swap) sample order; then the triple unpacking of
`content.shape`, and the `QImage` construction with stride `3 * width2`,
which raises when handed the buffer of a non-C-contiguous view. -/
def imageConvertFinish (bpp : Nat) (r : Except String (Option (NDContent × Bool))) :
    Except String (Option QImageModel) :=
  match r with
  | Except.error e => Except.error e
  | Except.ok none => Except.ok none
  | Except.ok (some (content0, contig0)) =>
    let cc : NDContent × Bool :=
      if 0 < (bpp : Int) - 8 then
        (content0.mapSamples (fun v => v / 2 ^ ((bpp : Int) - 8).toNat % 256), true)
      else (content0, contig0)
    match cc.1.unpackShape3 with
    | Except.error e => Except.error e
    | Except.ok (height2, width2) =>
      if cc.2 then
        Except.ok (some
          { width := width2, height := height2,
            bytesPerLine := 3 * width2, data := cc.1.flatten })
      else Except.error "TypeError: QImage buffer is not C-contiguous"

/-- Embeds the `ImageBuffer.image` property.  `Except.error` models a
raised Python exception, `Except.ok none` the implicit `None` returns
for unsupported formats, `Except.ok (some _)` a constructed `QImage`. -/
def ImageBuffer.image (b : ImageBuffer) : Except String (Option QImageModel) :=
  match b.buffer with
  | none => Except.error "AttributeError: NoneType has no attribute payload"
  | some c =>
    if c.data_format.isCustom then Except.ok none
    else
      match c.data_format.bpp with
      | none => Except.ok none
      | some bpp => imageConvertFinish bpp (imageReshaped c)

/-- Per-sample 8-bit conversion as the specification words it: with
exponent = bits-per-pixel minus 8, divide by `2 ^ exponent` and truncate
to 8 bits when the exponent is positive, otherwise pass the sample
through unchanged. -/
def pixelConvert (bpp v : Nat) : Nat :=
  if 8 < bpp then v / 2 ^ (bpp - 8) % 256 else v

/-- Per-pixel B-G-R to R-G-B swap as the specification words it, on the
flat byte sequence taken in groups of three. -/
def swapBGRTriples : List Nat → List Nat
  | b :: g :: r :: rest => r :: g :: b :: swapBGRTriples rest
  | l => l

/-- Outcome of one wait for a buffer inside `handle_one_buffer`:
a TimeoutException, a fatal non-timeout failure, or a delivered buffer
with its completeness and payload-type-visibility checks. -/
inductive PollOutcome where
  | timeout
  | fatal
  | buffer (complete : Bool) (visible : Bool)
deriving DecidableEq

/-- What the environment reports to one loop iteration: the result of
`ia.is_acquiring()`, the stop flag value observed at the loop head, the
poll outcome, and the stop flag value observed again after the buffer
checks (the flag is set asynchronously by the consumer). -/
structure IterEnv where
  acquiring : Bool
  stopFlag : Bool
  poll : PollOutcome
  stopFlagMid : Bool
deriving DecidableEq

/-- Observable actions of the acquisition thread: hardware calls
(`start_acquisition`, `stop_acquisition`, requeueing a discarded buffer,
`ia.destroy()`) and emitted Qt signals (`image_acquired` with its
sequence index, `done`). -/
inductive Event where
  | startAcq
  | stopAcq
  | requeue
  | imageAcquired (i : Nat)
  | destroy
  | done
deriving DecidableEq

/-- How a run of `ImageReaderThread.run` ended: normal return, a Python
exception propagating out of `run`, or still mid-loop (the environment
list ran out before any exit condition). -/
inductive Outcome where
  | finished | exception | running
deriving DecidableEq

/-- Result of (a prefix of) one run: the event trace, the final buffer
pool count, how the run ended, and whether `self._ia = None` was
executed. -/
structure RunResult where
  events : List Event
  pool : Int
  outcome : Outcome
  iaInvalidated : Bool
deriving DecidableEq

/-- Embeds the inner function `handle_one_buffer`: returns the events of
this iteration, the new pool count, and whether a non-timeout exception
escaped.  An accepted buffer constructs an `ImageBuffer` (incrementing
the pool) and emits `image_acquired` with the iteration index. -/
def ImageReaderThread.handleOneBuffer (env : IterEnv) (i : Nat) (pool : Int) :
    List Event × Int × Bool :=
  match env.poll with
  | PollOutcome.timeout => ([], pool, false)
  | PollOutcome.fatal => ([], pool, true)
  | PollOutcome.buffer complete visible =>
    if complete = false then ([Event.requeue], pool, false)
    else if visible = false then ([Event.requeue], pool, false)
    else if env.stopFlagMid then ([Event.requeue], pool, false)
    else ([Event.imageAcquired i], _BufferPool.increment pool, false)

/-- Embeds the code after the loop: `ia.destroy()`, `self._ia = None`,
`self.done.emit()`. -/
def ImageReaderThread.finalize (evs : List Event) (pool : Int) : RunResult :=
  { events := evs ++ [Event.destroy, Event.done], pool := pool,
    outcome := Outcome.finished, iaInvalidated := true }

/-- Embeds the `for i in itertools.count()` loop of
`ImageReaderThread.run` from iteration `i`, the environment list
supplying what the camera reports at each iteration.  A fatal poll
failure propagates: no destroy, no done, the handle stays set. -/
def ImageReaderThread.loop : List IterEnv → Nat → Int → RunResult
  | [], _, pool =>
    { events := [], pool := pool, outcome := Outcome.running, iaInvalidated := false }
  | env :: envs, i, pool =>
    if env.acquiring = false then ImageReaderThread.finalize [] pool
    else if env.stopFlag then
      match _BufferPool.buffersInUse pool with
      | Except.error _ =>
        { events := [], pool := pool, outcome := Outcome.exception,
          iaInvalidated := false }
      | Except.ok inUse =>
        if inUse then ImageReaderThread.finalize [Event.stopAcq] pool
        else ImageReaderThread.finalize [] pool
    else
      match ImageReaderThread.handleOneBuffer env i pool with
      | (evs, pool2, true) =>
        { events := evs, pool := pool2, outcome := Outcome.exception,
          iaInvalidated := false }
      | (evs, pool2, false) =>
        let r := ImageReaderThread.loop envs (i + 1) pool2
        { r with events := evs ++ r.events }

/-- Embeds `ImageReaderThread.run`: `start_acquisition`, then the loop
from iteration 0 with the pool counter as reset by the constructor. -/
def ImageReaderThread.run (envs : List IterEnv) : RunResult :=
  let r := ImageReaderThread.loop envs 0 0
  { r with events := Event.startAcq :: r.events }

/-- Embeds the buffer-pool effect of `ImageReaderThread.__init__`: it
calls `_BUFFER_BOOL.reset()` unconditionally, whatever the count was. -/
def ImageReaderThread.initPool (pool : Int) : Int := _BufferPool.reset pool

/-- The two `_BufferPool` mutators, for reasoning about operation
sequences. -/
inductive PoolOp where
  | inc | dec
deriving DecidableEq

/-- Applies one pool operation to a counter value. -/
def applyPoolOp (c : Int) : PoolOp → Except String Int
  | PoolOp.inc => Except.ok (_BufferPool.increment c)
  | PoolOp.dec => _BufferPool.decrement c

/-- Runs a sequence of pool operations from a counter value, stopping at
the first assertion failure. -/
def runPool : List PoolOp → Int → Except String Int
  | [], c => Except.ok c
  | op :: ops, c =>
    match applyPoolOp c op with
    | Except.error e => Except.error e
    | Except.ok c2 => runPool ops c2

/-- A sequence in which every decrement follows a matching increment:
each prefix contains at least as many increments as decrements. -/
def ValidOps (ops : List PoolOp) : Prop :=
  ∀ n, n ≤ ops.length →
    (ops.take n).count PoolOp.dec ≤ (ops.take n).count PoolOp.inc

instance (ops : List PoolOp) : Decidable (ValidOps ops) := by
  unfold ValidOps; infer_instance

/-- Projection of an event to its frame sequence index, when it is an
`image_acquired` emission. -/
def eventIndex : Event → Option Nat
  | Event.imageAcquired i => some i
  | _ => none

/-- The sequence indices carried by the `image_acquired` emissions of a
trace, in emission order. -/
def emittedIndices (l : List Event) : List Nat := l.filterMap eventIndex

/-- The specification's mono test payload: 8-bit mono, width 4,
height 2. -/
def mono8Component : Component :=
  { width := 4, height := 2,
    data_format := { isCustom := false, bpp := some 8, cls := FormatClass.mono },
    num_components_per_pixel := 1,
    data := [10, 20, 30, 40, 50, 60, 70, 80] }

/-- The specification's BGR test payload: one pixel with bytes
10, 20, 30. -/
def bgrComponent : Component :=
  { width := 1, height := 1,
    data_format := { isCustom := false, bpp := some 8, cls := FormatClass.bgr },
    num_components_per_pixel := 3,
    data := [10, 20, 30] }

/-- A 16-bit BGR payload: one pixel with samples 1024, 0, 256, so the
downscale copy materialises the swap. -/
def bgr16Component : Component :=
  { width := 1, height := 1,
    data_format := { isCustom := false, bpp := some 16, cls := FormatClass.bgr },
    num_components_per_pixel := 3,
    data := [1024, 0, 256] }

/-- A 16-bit mono payload holding the specification's downscale test
sample 1024. -/
def mono16Component : Component :=
  { width := 1, height := 1,
    data_format := { isCustom := false, bpp := some 16, cls := FormatClass.mono },
    num_components_per_pixel := 1,
    data := [1024] }

/-- A BGRA payload: one pixel with bytes 10, 20, 30 and alpha 40. -/
def bgraComponent : Component :=
  { width := 1, height := 1,
    data_format := { isCustom := false, bpp := some 8, cls := FormatClass.bgra },
    num_components_per_pixel := 4,
    data := [10, 20, 30, 40] }

/-- A 16-bit RGB payload holding the specification's downscale test
sample 1024, plus the extremes 0 and 65535. -/
def rgb16Component : Component :=
  { width := 1, height := 1,
    data_format := { isCustom := false, bpp := some 16, cls := FormatClass.rgb },
    num_components_per_pixel := 3,
    data := [1024, 0, 65535] }

/-- Iteration in which the camera is acquiring, no stop is pending, and
a complete, visible buffer arrives. -/
def acceptEnv : IterEnv :=
  { acquiring := true, stopFlag := false,
    poll := PollOutcome.buffer true true, stopFlagMid := false }

/-- Iteration in which the wait for a buffer times out. -/
def timeoutEnv : IterEnv :=
  { acquiring := true, stopFlag := false, poll := PollOutcome.timeout,
    stopFlagMid := false }

/-- Iteration in which the wait raises a non-timeout failure. -/
def fatalEnv : IterEnv :=
  { acquiring := true, stopFlag := false, poll := PollOutcome.fatal,
    stopFlagMid := false }

/-- Iteration at whose head a stop request is observed. -/
def stopEnv : IterEnv :=
  { acquiring := true, stopFlag := true, poll := PollOutcome.timeout,
    stopFlagMid := false }

/-- Iteration at which the camera reports it is no longer acquiring. -/
def idleEnv : IterEnv :=
  { acquiring := false, stopFlag := false, poll := PollOutcome.timeout,
    stopFlagMid := false }

/-- Run in which one frame is accepted and then a stop request is
observed while that frame is still unreleased. -/
def stopWhileInUseEnvs : List IterEnv := [acceptEnv, stopEnv]

/-- Run in which iteration 1 times out between two accepted frames, so
the emitted indices skip the value 1. -/
def skipEnvs : List IterEnv := [acceptEnv, timeoutEnv, acceptEnv, idleEnv]

lemma splitInto_zero {α : Type} (n : Nat) (l : List α) : splitInto 0 n l = [] := rfl

lemma splitInto_succ {α : Type} (k n : Nat) (l : List α) :
    splitInto (k + 1) n l = l.take n :: splitInto k n (l.drop n) := rfl

lemma swapBGRTriples_nil : swapBGRTriples [] = [] := rfl

lemma swapBGRTriples_cons3 (b g r : Nat) (rest : List Nat) :
    swapBGRTriples (b :: g :: r :: rest) = r :: g :: b :: swapBGRTriples rest := rfl

lemma length_splitInto {α : Type} :
    ∀ (k n : Nat) (l : List α), (splitInto k n l).length = k := by
  intro k
  induction k with
  | zero => intro n l; simp [splitInto_zero]
  | succ k ih => intro n l; simp [splitInto_succ, ih]

lemma flatten_splitInto {α : Type} :
    ∀ (k n : Nat) (l : List α), l.length = k * n → (splitInto k n l).flatten = l := by
  intro k
  induction k with
  | zero =>
    intro n l h
    have hl : l = [] := List.length_eq_zero.mp (by simpa using h)
    simp [hl, splitInto_zero]
  | succ k ih =>
    intro n l h
    have hd : (l.drop n).length = k * n := by
      simp only [List.length_drop, h, Nat.succ_mul]
      omega
    calc (splitInto (k + 1) n l).flatten
        = l.take n ++ (splitInto k n (l.drop n)).flatten := by
          rw [splitInto_succ, List.flatten_cons]
      _ = l.take n ++ l.drop n := by rw [ih n (l.drop n) hd]
      _ = l := List.take_append_drop n l

lemma map_splitInto {α β : Type} (f : α → β) :
    ∀ (k n : Nat) (l : List α),
      (splitInto k n l).map (List.map f) = splitInto k n (l.map f) := by
  intro k
  induction k with
  | zero => intro n l; simp [splitInto_zero]
  | succ k ih =>
    intro n l
    simp only [splitInto_succ, List.map_cons, ih, List.map_take, List.map_drop]

lemma flatten_map_map {α β : Type} (f : α → β) :
    ∀ (L : List (List α)), (L.map (List.map f)).flatten = L.flatten.map f := by
  intro L
  induction L with
  | nil => simp only [List.map_nil, List.flatten_nil]
  | cons x xs ih => simp only [List.map_cons, List.flatten_cons, List.map_append, ih]

lemma flatten_map_flatten {α : Type} :
    ∀ (X : List (List (List α))), (X.map List.flatten).flatten = X.flatten.flatten := by
  intro X
  induction X with
  | nil => simp only [List.map_nil, List.flatten_nil]
  | cons x xs ih => simp only [List.map_cons, List.flatten_cons, List.flatten_append, ih]

lemma swapBGRTriples_splitInto :
    ∀ (k : Nat) (l : List Nat), l.length = k * 3 →
      ((splitInto k 3 l).map List.reverse).flatten = swapBGRTriples l := by
  intro k
  induction k with
  | zero =>
    intro l h
    have hl : l = [] := List.length_eq_zero.mp (by simpa using h)
    simp [hl, splitInto_zero, swapBGRTriples_nil]
  | succ k ih =>
    intro l h
    cases l with
    | nil => simp [Nat.succ_mul] at h
    | cons b t1 =>
      cases t1 with
      | nil => simp [Nat.succ_mul] at h
      | cons g t2 =>
        cases t2 with
        | nil =>
          exfalso
          simp only [List.length_cons, List.length_nil] at h
          omega
        | cons r rest =>
          have hr : rest.length = k * 3 := by
            simp only [List.length_cons] at h
            omega
          have hsplit : splitInto (k + 1) 3 (b :: g :: r :: rest)
              = [b, g, r] :: splitInto k 3 rest := rfl
          rw [hsplit, List.map_cons, List.flatten_cons, swapBGRTriples_cons3,
            ih rest hr]
          rfl

lemma flatten_mapSamples (f : Nat → Nat) :
    ∀ (X : NDContent), (X.mapSamples f).flatten = X.flatten.map f := by
  intro X
  cases X with
  | two h w g =>
    simp only [NDContent.mapSamples, NDContent.flatten]
    exact flatten_map_map f g
  | three h w n g =>
    simp only [NDContent.mapSamples, NDContent.flatten]
    have h1 : (g.map (List.map (List.map f))).map List.flatten
        = (g.map List.flatten).map (List.map f) := by
      rw [List.map_map, List.map_map]
      refine List.map_congr_left ?_
      intro r _
      simp only [Function.comp_apply]
      exact flatten_map_map f r
    rw [h1]
    exact flatten_map_map f (g.map List.flatten)

lemma flatten_reshape3 (data : List Nat) (h w n : Nat)
    (hlen : data.length = h * w * n) :
    (NDContent.three h w n (splitInto h w (splitInto (h * w) n data))).flatten
      = data := by
  simp only [NDContent.flatten]
  rw [flatten_map_flatten]
  rw [flatten_splitInto h w _ (by simp [length_splitInto])]
  exact flatten_splitInto (h * w) n data hlen

lemma flatten_reverse_reshape3 (data : List Nat) (h w : Nat)
    (hlen : data.length = h * w * 3) :
    (NDContent.three h w 3 (splitInto h w (splitInto (h * w) 3 data))).reverseLastAxis.flatten
      = swapBGRTriples data := by
  simp only [NDContent.reverseLastAxis, NDContent.flatten]
  rw [flatten_map_flatten]
  rw [flatten_map_map]
  rw [flatten_splitInto h w _ (by simp [length_splitInto])]
  exact swapBGRTriples_splitInto (h * w) data hlen

lemma reverseLastAxis_three (h w n : Nat) (g : List (List (List Nat))) :
    (NDContent.three h w n g).reverseLastAxis
      = NDContent.three h w n (g.map (List.map List.reverse)) := rfl

lemma flatten_reverse_reshape3' (data : List Nat) (h w : Nat)
    (hlen : data.length = h * w * 3) :
    (NDContent.three h w 3
        ((splitInto h w (splitInto (h * w) 3 data)).map (List.map List.reverse))).flatten
      = swapBGRTriples data := by
  have := flatten_reverse_reshape3 data h w hlen
  rwa [reverseLastAxis_three] at this

lemma image_unfold (b : ImageBuffer) (c : Component) (bpp : Nat)
    (hb : b.buffer = some c)
    (hcust : c.data_format.isCustom = false)
    (hbpp : c.data_format.bpp = some bpp) :
    b.image = imageConvertFinish bpp (imageReshaped c) := by
  simp only [ImageBuffer.image, hb, hcust, Bool.false_eq_true, if_false, hbpp]

lemma imageReshaped_family (c : Component)
    (hcls : c.data_format.cls = FormatClass.rgb ∨
      c.data_format.cls = FormatClass.rgba ∨
      c.data_format.cls = FormatClass.bgr ∨
      c.data_format.cls = FormatClass.bgra)
    (hlen : c.data.length = c.height * c.width * c.num_components_per_pixel) :
    imageReshaped c = Except.ok (some
      (if c.data_format.cls = FormatClass.bgr then
        ((NDContent.three c.height c.width c.num_components_per_pixel
          (splitInto c.height c.width
            (splitInto (c.height * c.width) c.num_components_per_pixel
              c.data))).reverseLastAxis, false)
      else
        (NDContent.three c.height c.width c.num_components_per_pixel
          (splitInto c.height c.width
            (splitInto (c.height * c.width) c.num_components_per_pixel c.data)),
          true))) := by
  have hnm : ¬(c.data_format.cls = FormatClass.mono ∨
      c.data_format.cls = FormatClass.bayer) := by
    rcases hcls with h1 | h1 | h1 | h1 <;> rw [h1] <;> decide
  simp only [imageReshaped, reshape3]
  rw [if_neg hnm, if_pos hcls, if_pos hlen]
  rfl

lemma imageConvertFinish_three_pos (bpp h w n : Nat) (g : List (List (List Nat)))
    (contig : Bool) (hbig : 0 < (bpp : Int) - 8) :
    imageConvertFinish bpp (Except.ok (some (NDContent.three h w n g, contig)))
      = Except.ok (some
        { width := w, height := h, bytesPerLine := 3 * w,
          data := ((NDContent.three h w n g).mapSamples
            (fun v => v / 2 ^ ((bpp : Int) - 8).toNat % 256)).flatten }) := by
  simp only [imageConvertFinish, if_pos hbig]
  rfl

lemma imageConvertFinish_three_small (bpp h w n : Nat) (g : List (List (List Nat)))
    (hsmall : ¬ 0 < (bpp : Int) - 8) :
    imageConvertFinish bpp (Except.ok (some (NDContent.three h w n g, true)))
      = Except.ok (some
        { width := w, height := h, bytesPerLine := 3 * w,
          data := (NDContent.three h w n g).flatten }) := by
  simp only [imageConvertFinish, if_neg hsmall]
  rfl

lemma imageConvertFinish_three_noncontig (bpp h w n : Nat)
    (g : List (List (List Nat))) (hsmall : ¬ 0 < (bpp : Int) - 8) :
    imageConvertFinish bpp (Except.ok (some (NDContent.three h w n g, false)))
      = Except.error "TypeError: QImage buffer is not C-contiguous" := by
  simp only [imageConvertFinish, if_neg hsmall]
  rfl

/-- Core refinement of the pixel normalizer on the branches that produce
an image: an accepted RGB, RGBA or BGRA payload at any bit depth, or a
BGR payload whose bit depth exceeds 8 (so that the downscale division
materialises the swapped view into a fresh C-contiguous array).  The
produced QImage has the payload dimensions, stride three times the
width, and its bytes are the raw samples (B and R swapped pixelwise for
BGR only), each converted by the divide-and-truncate rule for the
format's bits per pixel. -/
lemma image_rgbFamily (b : ImageBuffer) (c : Component) (bpp : Nat)
    (hb : b.buffer = some c)
    (hcust : c.data_format.isCustom = false)
    (hbpp : c.data_format.bpp = some bpp)
    (hcls : c.data_format.cls = FormatClass.rgb ∨
      c.data_format.cls = FormatClass.rgba ∨
      c.data_format.cls = FormatClass.bgr ∨
      c.data_format.cls = FormatClass.bgra)
    (hn3 : c.data_format.cls = FormatClass.bgr → c.num_components_per_pixel = 3)
    (hok : c.data_format.cls = FormatClass.bgr → 8 < bpp)
    (hlen : c.data.length = c.height * c.width * c.num_components_per_pixel) :
    b.image = Except.ok (some
      { width := c.width, height := c.height, bytesPerLine := 3 * c.width,
        data := (if c.data_format.cls = FormatClass.bgr then swapBGRTriples c.data
          else c.data).map (pixelConvert bpp) }) := by
  rw [image_unfold b c bpp hb hcust hbpp, imageReshaped_family c hcls hlen]
  by_cases hbgr : c.data_format.cls = FormatClass.bgr
  · have hbig8 : 8 < bpp := hok hbgr
    have hbig : 0 < (bpp : Int) - 8 := by omega
    have h3 : c.num_components_per_pixel = 3 := hn3 hbgr
    rw [h3] at hlen
    rw [if_pos hbgr, if_pos hbgr, h3, reverseLastAxis_three,
      imageConvertFinish_three_pos _ _ _ _ _ _ hbig, flatten_mapSamples,
      flatten_reverse_reshape3' c.data c.height c.width hlen]
    have hmap : (swapBGRTriples c.data).map
        (fun v => v / 2 ^ ((bpp : Int) - 8).toNat % 256)
        = (swapBGRTriples c.data).map (pixelConvert bpp) := by
      refine List.map_congr_left ?_
      intro v _
      have ht : ((bpp : Int) - 8).toNat = bpp - 8 := by omega
      rw [ht]
      simp only [pixelConvert, if_pos hbig8]
    rw [hmap]
  · rw [if_neg hbgr, if_neg hbgr]
    by_cases hbig : 0 < (bpp : Int) - 8
    · rw [imageConvertFinish_three_pos _ _ _ _ _ _ hbig, flatten_mapSamples,
        flatten_reshape3 c.data c.height c.width c.num_components_per_pixel hlen]
      have hbig8 : 8 < bpp := by omega
      have hmap : c.data.map (fun v => v / 2 ^ ((bpp : Int) - 8).toNat % 256)
          = c.data.map (pixelConvert bpp) := by
        refine List.map_congr_left ?_
        intro v _
        have ht : ((bpp : Int) - 8).toNat = bpp - 8 := by omega
        rw [ht]
        simp only [pixelConvert, if_pos hbig8]
      rw [hmap]
    · rw [imageConvertFinish_three_small _ _ _ _ _ hbig,
        flatten_reshape3 c.data c.height c.width c.num_components_per_pixel hlen]
      have hsmall8 : ¬ 8 < bpp := by omega
      have hmap : c.data.map (pixelConvert bpp) = c.data.map id :=
        List.map_congr_left fun v _ => by simp only [pixelConvert, if_neg hsmall8, id]
      rw [hmap, List.map_id]

/-- The BGR branch at bit depth at most 8: the reversal is a
negative-stride view and the downscale that would copy it never runs, so
the QImage constructor is handed a non-C-contiguous buffer and raises —
no image is produced and the memory bytes were never swapped. -/
lemma image_bgr_small_raises (b : ImageBuffer) (c : Component) (bpp : Nat)
    (hb : b.buffer = some c)
    (hcust : c.data_format.isCustom = false)
    (hbpp : c.data_format.bpp = some bpp)
    (hcls : c.data_format.cls = FormatClass.bgr)
    (hn3 : c.num_components_per_pixel = 3)
    (hlen : c.data.length = c.height * c.width * 3)
    (hsmall : bpp ≤ 8) :
    b.image = Except.error "TypeError: QImage buffer is not C-contiguous" := by
  have hfam : c.data_format.cls = FormatClass.rgb ∨
      c.data_format.cls = FormatClass.rgba ∨
      c.data_format.cls = FormatClass.bgr ∨
      c.data_format.cls = FormatClass.bgra := Or.inr (Or.inr (Or.inl hcls))
  have hlen2 : c.data.length
      = c.height * c.width * c.num_components_per_pixel := by
    rw [hn3]; exact hlen
  rw [image_unfold b c bpp hb hcust hbpp, imageReshaped_family c hfam hlen2]
  have hsm : ¬ 0 < (bpp : Int) - 8 := by omega
  rw [if_pos hcls, reverseLastAxis_three,
    imageConvertFinish_three_noncontig _ _ _ _ _ hsm]

lemma handleOneBuffer_cases (env : IterEnv) (i : Nat) (pool : Int) :
    ImageReaderThread.handleOneBuffer env i pool = ([], pool, false) ∨
    ImageReaderThread.handleOneBuffer env i pool = ([], pool, true) ∨
    ImageReaderThread.handleOneBuffer env i pool = ([Event.requeue], pool, false) ∨
    ImageReaderThread.handleOneBuffer env i pool
      = ([Event.imageAcquired i], _BufferPool.increment pool, false) := by
  cases henv : env.poll with
  | timeout => exact Or.inl (by simp [ImageReaderThread.handleOneBuffer, henv])
  | fatal => exact Or.inr (Or.inl (by simp [ImageReaderThread.handleOneBuffer, henv]))
  | buffer complete visible =>
    cases complete with
    | false =>
      exact Or.inr (Or.inr (Or.inl (by simp [ImageReaderThread.handleOneBuffer, henv])))
    | true =>
      cases visible with
      | false =>
        exact Or.inr (Or.inr (Or.inl (by simp [ImageReaderThread.handleOneBuffer, henv])))
      | true =>
        cases hmid : env.stopFlagMid with
        | true =>
          exact Or.inr (Or.inr (Or.inl
            (by simp [ImageReaderThread.handleOneBuffer, henv, hmid])))
        | false =>
          exact Or.inr (Or.inr (Or.inr
            (by simp [ImageReaderThread.handleOneBuffer, henv, hmid])))

lemma loop_exit_contract :
    ∀ (envs : List IterEnv) (i : Nat) (pool : Int),
      ((ImageReaderThread.loop envs i pool).outcome = Outcome.finished →
        (ImageReaderThread.loop envs i pool).events.count Event.done = 1 ∧
        (ImageReaderThread.loop envs i pool).iaInvalidated = true) ∧
      ((ImageReaderThread.loop envs i pool).outcome = Outcome.exception →
        (ImageReaderThread.loop envs i pool).events.count Event.done = 0 ∧
        (ImageReaderThread.loop envs i pool).iaInvalidated = false) ∧
      ((ImageReaderThread.loop envs i pool).outcome = Outcome.running →
        (ImageReaderThread.loop envs i pool).events.count Event.done = 0 ∧
        (ImageReaderThread.loop envs i pool).iaInvalidated = false) := by
  intro envs
  induction envs with
  | nil =>
    intro i pool
    exact ⟨fun h => Outcome.noConfusion h, fun h => Outcome.noConfusion h,
      fun _ => ⟨rfl, rfl⟩⟩
  | cons env envs ih =>
    intro i pool
    by_cases hacq : env.acquiring = false
    · have hl : ImageReaderThread.loop (env :: envs) i pool
          = ImageReaderThread.finalize [] pool := by
        simp [ImageReaderThread.loop, hacq]
      rw [hl]
      exact ⟨fun _ => ⟨rfl, rfl⟩, fun h => Outcome.noConfusion h,
        fun h => Outcome.noConfusion h⟩
    · have hacq2 : env.acquiring = true := by
        revert hacq; cases env.acquiring <;> simp
      by_cases hstop : env.stopFlag = true
      · cases hbi : _BufferPool.buffersInUse pool with
        | error e =>
          have hl : ImageReaderThread.loop (env :: envs) i pool
              = { events := [], pool := pool, outcome := Outcome.exception,
                  iaInvalidated := false } := by
            simp [ImageReaderThread.loop, hacq2, hstop, hbi]
          rw [hl]
          exact ⟨fun h => Outcome.noConfusion h, fun _ => ⟨rfl, rfl⟩,
            fun h => Outcome.noConfusion h⟩
        | ok inUse =>
          cases inUse with
          | true =>
            have hl : ImageReaderThread.loop (env :: envs) i pool
                = ImageReaderThread.finalize [Event.stopAcq] pool := by
              simp [ImageReaderThread.loop, hacq2, hstop, hbi]
            rw [hl]
            exact ⟨fun _ => ⟨rfl, rfl⟩, fun h => Outcome.noConfusion h,
              fun h => Outcome.noConfusion h⟩
          | false =>
            have hl : ImageReaderThread.loop (env :: envs) i pool
                = ImageReaderThread.finalize [] pool := by
              simp [ImageReaderThread.loop, hacq2, hstop, hbi]
            rw [hl]
            exact ⟨fun _ => ⟨rfl, rfl⟩, fun h => Outcome.noConfusion h,
              fun h => Outcome.noConfusion h⟩
      · rcases handleOneBuffer_cases env i pool with hh | hh | hh | hh
        · have hl : ImageReaderThread.loop (env :: envs) i pool
              = { ImageReaderThread.loop envs (i + 1) pool with
                  events := [] ++ (ImageReaderThread.loop envs (i + 1) pool).events } := by
            simp [ImageReaderThread.loop, hacq2, hstop, hh]
          rw [hl]
          simpa using ih (i + 1) pool
        · have hl : ImageReaderThread.loop (env :: envs) i pool
              = { events := [], pool := pool, outcome := Outcome.exception,
                  iaInvalidated := false } := by
            simp [ImageReaderThread.loop, hacq2, hstop, hh]
          rw [hl]
          exact ⟨fun h => Outcome.noConfusion h, fun _ => ⟨rfl, rfl⟩,
            fun h => Outcome.noConfusion h⟩
        · have hl : ImageReaderThread.loop (env :: envs) i pool
              = { ImageReaderThread.loop envs (i + 1) pool with
                  events := [Event.requeue]
                    ++ (ImageReaderThread.loop envs (i + 1) pool).events } := by
            simp [ImageReaderThread.loop, hacq2, hstop, hh]
          rw [hl]
          have := ih (i + 1) pool
          constructor
          · intro h
            have h2 := this.1 h
            refine ⟨?_, h2.2⟩
            simpa [List.count_cons] using h2.1
          constructor
          · intro h
            have h2 := this.2.1 h
            refine ⟨?_, h2.2⟩
            simpa [List.count_cons] using h2.1
          · intro h
            have h2 := this.2.2 h
            refine ⟨?_, h2.2⟩
            simpa [List.count_cons] using h2.1
        · have hl : ImageReaderThread.loop (env :: envs) i pool
              = { ImageReaderThread.loop envs (i + 1) (_BufferPool.increment pool) with
                  events := [Event.imageAcquired i]
                    ++ (ImageReaderThread.loop envs (i + 1)
                        (_BufferPool.increment pool)).events } := by
            simp [ImageReaderThread.loop, hacq2, hstop, hh]
          rw [hl]
          have := ih (i + 1) (_BufferPool.increment pool)
          constructor
          · intro h
            have h2 := this.1 h
            refine ⟨?_, h2.2⟩
            simpa [List.count_cons] using h2.1
          constructor
          · intro h
            have h2 := this.2.1 h
            refine ⟨?_, h2.2⟩
            simpa [List.count_cons] using h2.1
          · intro h
            have h2 := this.2.2 h
            refine ⟨?_, h2.2⟩
            simpa [List.count_cons] using h2.1

lemma emittedIndices_append (l1 l2 : List Event) :
    emittedIndices (l1 ++ l2) = emittedIndices l1 ++ emittedIndices l2 :=
  List.filterMap_append l1 l2 eventIndex

lemma emittedIndices_nil : emittedIndices [] = [] := rfl

lemma emittedIndices_destroy_done :
    emittedIndices [Event.destroy, Event.done] = [] := rfl

lemma emittedIndices_requeue_cons (l : List Event) :
    emittedIndices (Event.requeue :: l) = emittedIndices l := rfl

lemma emittedIndices_stopAcq_cons (l : List Event) :
    emittedIndices (Event.stopAcq :: l) = emittedIndices l := rfl

lemma emittedIndices_startAcq_cons (l : List Event) :
    emittedIndices (Event.startAcq :: l) = emittedIndices l := rfl

lemma emittedIndices_image_cons (i : Nat) (l : List Event) :
    emittedIndices (Event.imageAcquired i :: l) = i :: emittedIndices l := rfl

lemma loop_events_cases (env : IterEnv) (envs : List IterEnv) (i : Nat) (pool : Int) :
    (∃ evs, (evs = ([] : List Event) ∨ evs = [Event.stopAcq]) ∧
      (ImageReaderThread.loop (env :: envs) i pool).events
        = evs ++ [Event.destroy, Event.done]) ∨
    (ImageReaderThread.loop (env :: envs) i pool).events = [] ∨
    (∃ pool2,
      (ImageReaderThread.loop (env :: envs) i pool).events
          = (ImageReaderThread.loop envs (i + 1) pool2).events ∨
      (ImageReaderThread.loop (env :: envs) i pool).events
          = Event.requeue :: (ImageReaderThread.loop envs (i + 1) pool2).events ∨
      (ImageReaderThread.loop (env :: envs) i pool).events
          = Event.imageAcquired i
            :: (ImageReaderThread.loop envs (i + 1) pool2).events) := by
  by_cases hacq : env.acquiring = false
  · exact Or.inl ⟨[], Or.inl rfl, by simp [ImageReaderThread.loop, hacq,
      ImageReaderThread.finalize]⟩
  · have hacq2 : env.acquiring = true := by
      revert hacq; cases env.acquiring <;> simp
    by_cases hstop : env.stopFlag = true
    · cases hbi : _BufferPool.buffersInUse pool with
      | error e =>
        exact Or.inr (Or.inl (by simp [ImageReaderThread.loop, hacq2, hstop, hbi]))
      | ok inUse =>
        cases inUse with
        | true =>
          exact Or.inl ⟨[Event.stopAcq], Or.inr rfl,
            by simp [ImageReaderThread.loop, hacq2, hstop, hbi,
              ImageReaderThread.finalize]⟩
        | false =>
          exact Or.inl ⟨[], Or.inl rfl,
            by simp [ImageReaderThread.loop, hacq2, hstop, hbi,
              ImageReaderThread.finalize]⟩
    · rcases handleOneBuffer_cases env i pool with hh | hh | hh | hh
      · exact Or.inr (Or.inr ⟨pool, Or.inl
          (by simp [ImageReaderThread.loop, hacq2, hstop, hh])⟩)
      · exact Or.inr (Or.inl (by simp [ImageReaderThread.loop, hacq2, hstop, hh]))
      · exact Or.inr (Or.inr ⟨pool, Or.inr (Or.inl
          (by simp [ImageReaderThread.loop, hacq2, hstop, hh]))⟩)
      · exact Or.inr (Or.inr ⟨_BufferPool.increment pool, Or.inr (Or.inr
          (by simp [ImageReaderThread.loop, hacq2, hstop, hh]))⟩)

lemma loop_emitted_ge :
    ∀ (envs : List IterEnv) (i : Nat) (pool : Int) (j : Nat),
      j ∈ emittedIndices (ImageReaderThread.loop envs i pool).events → i ≤ j := by
  intro envs
  induction envs with
  | nil =>
    intro i pool j hj
    simp [ImageReaderThread.loop, emittedIndices] at hj
  | cons env envs ih =>
    intro i pool j hj
    rcases loop_events_cases env envs i pool with
      ⟨evs, hevs, hev⟩ | hev | ⟨pool2, hev | hev | hev⟩
    · rw [hev, emittedIndices_append, emittedIndices_destroy_done] at hj
      rcases hevs with rfl | rfl
      · simp [emittedIndices_nil] at hj
      · rw [emittedIndices_stopAcq_cons] at hj
        simp [emittedIndices_nil] at hj
    · rw [hev, emittedIndices_nil] at hj
      simp at hj
    · rw [hev] at hj
      have := ih (i + 1) pool2 j hj
      omega
    · rw [hev, emittedIndices_requeue_cons] at hj
      have := ih (i + 1) pool2 j hj
      omega
    · rw [hev, emittedIndices_image_cons] at hj
      rcases List.mem_cons.mp hj with rfl | hj2
      · exact Nat.le_refl j
      · have := ih (i + 1) pool2 j hj2
        omega

lemma loop_emitted_sorted :
    ∀ (envs : List IterEnv) (i : Nat) (pool : Int),
      (emittedIndices (ImageReaderThread.loop envs i pool).events).Pairwise (· < ·) := by
  intro envs
  induction envs with
  | nil =>
    intro i pool
    simp [ImageReaderThread.loop, emittedIndices]
  | cons env envs ih =>
    intro i pool
    rcases loop_events_cases env envs i pool with
      ⟨evs, hevs, hev⟩ | hev | ⟨pool2, hev | hev | hev⟩
    · rw [hev, emittedIndices_append, emittedIndices_destroy_done]
      rcases hevs with rfl | rfl
      · simp [emittedIndices_nil]
      · rw [emittedIndices_stopAcq_cons]
        simp [emittedIndices_nil]
    · rw [hev, emittedIndices_nil]
      exact List.Pairwise.nil
    · rw [hev]
      exact ih (i + 1) pool2
    · rw [hev, emittedIndices_requeue_cons]
      exact ih (i + 1) pool2
    · rw [hev, emittedIndices_image_cons]
      refine List.Pairwise.cons ?_ (ih (i + 1) pool2)
      intro j hj
      have := loop_emitted_ge envs (i + 1) pool2 j hj
      omega

lemma runPool_ok :
    ∀ (ops : List PoolOp) (c : Int), 0 ≤ c →
      (∀ n, n ≤ ops.length →
        (((ops.take n).count PoolOp.dec : Int)
          ≤ ((ops.take n).count PoolOp.inc : Int) + c)) →
      ∃ c2, runPool ops c = Except.ok c2 ∧ 0 ≤ c2 := by
  intro ops
  induction ops with
  | nil =>
    intro c hc _
    exact ⟨c, rfl, hc⟩
  | cons op ops ih =>
    intro c hc hpre
    cases op with
    | inc =>
      have hstep : ∀ n, n ≤ ops.length →
          (((ops.take n).count PoolOp.dec : Int)
            ≤ ((ops.take n).count PoolOp.inc : Int) + (c + 1)) := by
        intro n hn
        have h2 := hpre (n + 1) (by simpa using Nat.succ_le_succ hn)
        simp [List.take_succ_cons, List.count_cons] at h2
        omega
      obtain ⟨c2, h1, h2⟩ := ih (c + 1) (by omega) hstep
      refine ⟨c2, ?_, h2⟩
      simpa [runPool, applyPoolOp, _BufferPool.increment] using h1
    | dec =>
      have h1 := hpre 1 (by simp)
      simp [List.count_cons] at h1
      have hcpos : 0 < c := by omega
      have hrun : runPool (PoolOp.dec :: ops) c = runPool ops (c - 1) := by
        simp [runPool, applyPoolOp, _BufferPool.decrement, hcpos]
      have hstep : ∀ n, n ≤ ops.length →
          (((ops.take n).count PoolOp.dec : Int)
            ≤ ((ops.take n).count PoolOp.inc : Int) + (c - 1)) := by
        intro n hn
        have h2 := hpre (n + 1) (by simpa using Nat.succ_le_succ hn)
        simp [List.take_succ_cons, List.count_cons] at h2
        omega
      obtain ⟨c2, h2, h3⟩ := ih (c - 1) (by omega) hstep
      exact ⟨c2, by rw [hrun]; exact h2, h3⟩

/-- C1, counterexample: in the run whose first wait for a buffer raises
a non-timeout failure, the exception propagates out of
`ImageReaderThread.run`, the run ends with no `done` emission and with
the camera-handle reference still set — refuting the claim that every
exit path, a fatal wait failure included, invalidates the handle and
emits `done` exactly once. -/
theorem c1_fatal_skips_done :
    (ImageReaderThread.run [fatalEnv]).outcome = Outcome.exception ∧
    (ImageReaderThread.run [fatalEnv]).events.count Event.done = 0 ∧
    (ImageReaderThread.run [fatalEnv]).iaInvalidated = false := by decide

/-- C1 (amended): on every run that exits the loop by a normal break
(camera not acquiring, or a stop request observed) the camera-handle
reference is invalidated and `done` is emitted exactly once; a run ended
by a fatal non-timeout failure while waiting for a buffer emits no
`done` and leaves the handle reference set. -/
theorem c1_exit_contract (envs : List IterEnv) :
    ((ImageReaderThread.run envs).outcome = Outcome.finished →
      (ImageReaderThread.run envs).events.count Event.done = 1 ∧
      (ImageReaderThread.run envs).iaInvalidated = true) ∧
    ((ImageReaderThread.run envs).outcome = Outcome.exception →
      (ImageReaderThread.run envs).events.count Event.done = 0 ∧
      (ImageReaderThread.run envs).iaInvalidated = false) := by
  have h := loop_exit_contract envs 0 0
  have hev : (ImageReaderThread.run envs).events
      = Event.startAcq :: (ImageReaderThread.loop envs 0 0).events := rfl
  have hout : (ImageReaderThread.run envs).outcome
      = (ImageReaderThread.loop envs 0 0).outcome := rfl
  have hia : (ImageReaderThread.run envs).iaInvalidated
      = (ImageReaderThread.loop envs 0 0).iaInvalidated := rfl
  rw [hev, hout, hia]
  constructor
  · intro hf
    have h2 := h.1 hf
    refine ⟨?_, h2.2⟩
    simpa [List.count_cons] using h2.1
  · intro hf
    have h2 := h.2.1 hf
    refine ⟨?_, h2.2⟩
    simpa [List.count_cons] using h2.1

theorem c1_exit_contract_witness :
    (ImageReaderThread.run [idleEnv]).events.count Event.done = 1 ∧
    (ImageReaderThread.run [idleEnv]).iaInvalidated = true :=
  (c1_exit_contract [idleEnv]).1 (by decide)

/-- C2: in the run where one frame is accepted (pool count 1) and a stop
request is then observed while that frame is still unreleased, the loop
requests hardware stop, breaks, and immediately executes `ia.destroy()`
— the run finishes with `destroy` in its trace while the pool count is
still 1, since nothing in `ImageReaderThread.run` ever decrements the
pool.  This contradicts the claim that destroy is never invoked while
the BufferPool counter is positive. -/
theorem c2_destroy_while_in_use :
    Event.destroy ∈ (ImageReaderThread.run stopWhileInUseEnvs).events ∧
    (ImageReaderThread.run stopWhileInUseEnvs).pool = 1 ∧
    (ImageReaderThread.run stopWhileInUseEnvs).outcome = Outcome.finished := by decide

/-- C3: on the specification's own test vector — an accepted 8-bit mono
payload of width 4 and height 2 — the normalizer does not produce a
3-channel broadcast image: the mono branch reshapes to a 2-dimensional
array and the final triple unpacking of `content.shape` raises a
ValueError, so no image is ever produced for mono or Bayer payloads. -/
theorem c3_mono_unpack_error :
    ImageBuffer.image { i := 0, buffer := some mono8Component }
      = Except.error "ValueError: not enough values to unpack, expected 3 got 2" := by
  decide

/-- C4, counterexample: a BGRA payload with pixel bytes 10, 20, 30 and
alpha 40 is not channel-reversed and its alpha byte is not dropped — the
output buffer is the unmodified bytes 10, 20, 30, 40 (declared to QImage
with stride 3), not the reversed alpha-free bytes 30, 20, 10 that the
claim predicts; and the claim's own 8-bit BGR pixel 10, 20, 30 yields no
image at all: the reversal is a negative-stride view, no downscale copy
runs at 8 bits, and the QImage constructor raises on the
non-C-contiguous buffer. -/
theorem c4_bgra_not_swapped :
    ImageBuffer.image { i := 0, buffer := some bgraComponent }
      = Except.ok (some
        { width := 1, height := 1, bytesPerLine := 3, data := [10, 20, 30, 40] }) ∧
    ImageBuffer.image { i := 0, buffer := some bgraComponent }
      ≠ Except.ok (some
        { width := 1, height := 1, bytesPerLine := 3, data := [30, 20, 10] }) ∧
    ImageBuffer.image { i := 0, buffer := some bgrComponent }
      = Except.error "TypeError: QImage buffer is not C-contiguous" := by decide

/-- C4 (amended): the swap is keyed on membership in `bgr_formats` only,
and `content[:, :, ::-1]` moves no bytes.  For an accepted BGR payload
with more than 8 bits per pixel the downscale division copies the
reversed view into a fresh contiguous array, so the output bytes are the
pixelwise-swapped (canonical RGB) downscaled samples; for a BGR payload
with at most 8 bits per pixel no copy is made and the QImage constructor
raises on the non-C-contiguous buffer, so no image is produced and the
memory order stays B, G, R; BGRA payloads are never reversed and their
alpha bytes stay in the output buffer. -/
theorem c4_bgr_swapped (b : ImageBuffer) (c : Component) (bpp : Nat)
    (hb : b.buffer = some c)
    (hcust : c.data_format.isCustom = false)
    (hbpp : c.data_format.bpp = some bpp)
    (hcls : c.data_format.cls = FormatClass.bgr)
    (hn3 : c.num_components_per_pixel = 3)
    (hlen : c.data.length = c.height * c.width * 3) :
    (8 < bpp → b.image = Except.ok (some
      { width := c.width, height := c.height, bytesPerLine := 3 * c.width,
        data := (swapBGRTriples c.data).map (pixelConvert bpp) })) ∧
    (bpp ≤ 8 →
      b.image = Except.error "TypeError: QImage buffer is not C-contiguous") := by
  constructor
  · intro hbig
    have h := image_rgbFamily b c bpp hb hcust hbpp (Or.inr (Or.inr (Or.inl hcls)))
      (fun _ => hn3) (fun _ => hbig) (by rw [hn3]; exact hlen)
    rw [if_pos hcls] at h
    exact h
  · intro hsmall
    exact image_bgr_small_raises b c bpp hb hcust hbpp hcls hn3 hlen hsmall

theorem c4_bgr_swapped_witness :
    ImageBuffer.image { i := 0, buffer := some bgr16Component }
      = Except.ok (some
        { width := 1, height := 1, bytesPerLine := 3, data := [1, 0, 4] }) ∧
    ImageBuffer.image { i := 0, buffer := some bgrComponent }
      = Except.error "TypeError: QImage buffer is not C-contiguous" := by
  have h16 := c4_bgr_swapped { i := 0, buffer := some bgr16Component }
    bgr16Component 16 rfl rfl rfl rfl rfl (by decide)
  have h8 := c4_bgr_swapped { i := 0, buffer := some bgrComponent }
    bgrComponent 8 rfl rfl rfl rfl rfl (by decide)
  constructor
  · have h1 := h16.1 (by decide)
    rw [h1]
    decide
  · exact h8.2 (by decide)

/-- C5: for every operation sequence in which each decrement follows a
matching increment (every prefix has at least as many increments as
decrements), every prefix of the run from the reset counter succeeds,
the counter is never negative, and `buffers_in_use` reports exactly
whether the counter is positive; a decrement issued at counter zero is
rejected by the assertion instead of driving the counter negative. -/
theorem c5_pool_invariant (ops : List PoolOp) (h : ValidOps ops) :
    (∀ n, ∃ c, runPool (ops.take n) 0 = Except.ok c ∧ 0 ≤ c ∧
      _BufferPool.buffersInUse c = Except.ok (decide (0 < c))) ∧
    (∃ e, _BufferPool.decrement 0 = Except.error e) := by
  constructor
  · intro n
    have hpre : ∀ m, m ≤ (ops.take n).length →
        ((((ops.take n).take m).count PoolOp.dec : Int)
          ≤ (((ops.take n).take m).count PoolOp.inc : Int) + 0) := by
      intro m hm
      rw [List.take_take]
      have hmin : m ⊓ n ≤ ops.length := by
        rw [List.length_take] at hm
        omega
      have := h (m ⊓ n) hmin
      omega
    obtain ⟨c, h1, h2⟩ := runPool_ok (ops.take n) 0 (by omega) hpre
    exact ⟨c, h1, h2, by simp only [_BufferPool.buffersInUse, if_pos h2]⟩
  · exact ⟨"AssertionError: buffers_in_use greater than 0", by decide⟩

theorem c5_pool_invariant_witness :
    (∃ c, runPool ([PoolOp.inc, PoolOp.dec].take 2) 0 = Except.ok c ∧ 0 ≤ c ∧
      _BufferPool.buffersInUse c = Except.ok (decide (0 < c))) ∧
    (∃ e, _BufferPool.decrement 0 = Except.error e) := by
  have h := c5_pool_invariant [PoolOp.inc, PoolOp.dec] (by decide)
  exact ⟨h.1 2, h.2⟩

/-- C6: the first `release()` of a live handle decrements the pool and
requeues the owned buffer to the hardware ring, clearing the handle's
buffer reference; a second `release()` of the same handle raises an
error for every pool count — the decrement assertion when the count is
zero, otherwise the `NoneType` attribute error from requeueing the
cleared reference — and is never silently ignored. -/
theorem c6_release_single_use (pool : Int) (b : ImageBuffer) (comp : Component)
    (hbuf : b.buffer = some comp) (hpool : 0 < pool) :
    b.release pool = Except.ok ({ b with buffer := none }, pool - 1, comp) ∧
    (∀ pool2 : Int, ∃ e,
      ImageBuffer.release { b with buffer := none } pool2 = Except.error e) := by
  constructor
  · simp [ImageBuffer.release, _BufferPool.decrement, hpool, hbuf]
  · intro pool2
    by_cases h2 : 0 < pool2
    · exact ⟨"AttributeError: NoneType has no attribute queue",
        by simp [ImageBuffer.release, _BufferPool.decrement, h2]⟩
    · exact ⟨"AssertionError: buffers_in_use greater than 0",
        by simp [ImageBuffer.release, _BufferPool.decrement, h2]⟩

theorem c6_release_single_use_witness :
    ImageBuffer.release { i := 0, buffer := some bgrComponent } 1
      = Except.ok ({ i := 0, buffer := none }, 0, bgrComponent) ∧
    (∃ e, ImageBuffer.release { i := 0, buffer := none } 5 = Except.error e) := by
  have h := c6_release_single_use 1 { i := 0, buffer := some bgrComponent }
    bgrComponent rfl (by decide)
  exact ⟨h.1, h.2 5⟩

/-- C7: whenever a pending stop request is observed at an iteration
boundary (camera still acquiring, nonnegative pool count), the loop
calls the camera handle's `stop_acquisition` exactly when the pool
reports buffers in use, and in either case breaks out of the loop into
finalization, which emits one `done`. -/
theorem c7_stop_branch (env : IterEnv) (envs : List IterEnv) (i : Nat) (pool : Int)
    (hacq : env.acquiring = true) (hstop : env.stopFlag = true) (hpool : 0 ≤ pool) :
    ((Event.stopAcq ∈ (ImageReaderThread.loop (env :: envs) i pool).events)
      ↔ 0 < pool) ∧
    (ImageReaderThread.loop (env :: envs) i pool).outcome = Outcome.finished ∧
    (ImageReaderThread.loop (env :: envs) i pool).events.count Event.done = 1 ∧
    (ImageReaderThread.loop (env :: envs) i pool).iaInvalidated = true := by
  have hbi : _BufferPool.buffersInUse pool = Except.ok (decide (0 < pool)) := by
    simp only [_BufferPool.buffersInUse, if_pos hpool]
  by_cases hp : 0 < pool
  · have hl : ImageReaderThread.loop (env :: envs) i pool
        = ImageReaderThread.finalize [Event.stopAcq] pool := by
      simp [ImageReaderThread.loop, hacq, hstop, hbi, hp]
    rw [hl]
    refine ⟨?_, rfl, rfl, rfl⟩
    simp [ImageReaderThread.finalize, hp]
  · have hl : ImageReaderThread.loop (env :: envs) i pool
        = ImageReaderThread.finalize [] pool := by
      simp [ImageReaderThread.loop, hacq, hstop, hbi, hp]
    rw [hl]
    refine ⟨?_, rfl, rfl, rfl⟩
    simp [ImageReaderThread.finalize, hp]

theorem c7_stop_branch_witness :
    (Event.stopAcq ∈ (ImageReaderThread.loop [stopEnv] 0 1).events) ∧
    (ImageReaderThread.loop [stopEnv] 0 1).outcome = Outcome.finished := by
  have h := c7_stop_branch stopEnv [] 0 1 rfl rfl (by decide)
  exact ⟨h.1.mpr (by decide), h.2.1⟩

/-- C8: within one run, the sequence indices carried by the emitted
`image_acquired` events are strictly increasing in emission order (hence
duplicate-free), for every environment; and in the concrete run where
the middle iteration times out, the emitted indices are 0 and 2 — the
timed-out iteration consumed index 1, so indices need not be
contiguous. -/
theorem c8_indices_strictly_increasing :
    (∀ envs : List IterEnv,
      (emittedIndices (ImageReaderThread.run envs).events).Pairwise (· < ·)) ∧
    emittedIndices (ImageReaderThread.run skipEnvs).events = [0, 2] := by
  constructor
  · intro envs
    have hev : (ImageReaderThread.run envs).events
        = Event.startAcq :: (ImageReaderThread.loop envs 0 0).events := rfl
    rw [hev, emittedIndices_startAcq_cons]
    exact loop_emitted_sorted envs 0 0
  · decide

/-- C9, counterexample: the claim quantifies over every accepted
payload, but on an accepted 16-bit mono payload holding the sample 1024
the normalizer produces nothing at all — the mono branch raises the
shape-unpack ValueError before any converted data reaches an image — so
the sample does not normalize to 4 as the claim requires. -/
theorem c9_mono_no_conversion :
    ImageBuffer.image { i := 0, buffer := some mono16Component }
      = Except.error "ValueError: not enough values to unpack, expected 3 got 2" ∧
    ImageBuffer.image { i := 0, buffer := some mono16Component }
      ≠ Except.ok (some
        { width := 1, height := 1, bytesPerLine := 3, data := [4] }) := by decide

/-- C9 (amended): for every accepted payload on which the normalizer
completes — an RGB, RGBA or BGRA payload at any bit depth, or a BGR
payload with more than 8 bits per pixel; mono and Bayer payloads raise
at the shape unpack, and 8-bit-or-less BGR raises at the QImage buffer —
the exponent is bits-per-pixel minus 8, each output byte is the
corresponding input sample divided by `2 ^ exponent` and truncated to
8 bits when the exponent is positive (a 16-bit sample 1024 normalizes to
4), and the sample unchanged when the exponent is at most zero (for BGR
the correspondence is through the pixelwise B-R swap). -/
theorem c9_bit_depth_conversion (b : ImageBuffer) (c : Component) (bpp : Nat)
    (hb : b.buffer = some c)
    (hcust : c.data_format.isCustom = false)
    (hbpp : c.data_format.bpp = some bpp)
    (hcls : c.data_format.cls = FormatClass.rgb ∨
      c.data_format.cls = FormatClass.rgba ∨
      c.data_format.cls = FormatClass.bgr ∨
      c.data_format.cls = FormatClass.bgra)
    (hn3 : c.data_format.cls = FormatClass.bgr → c.num_components_per_pixel = 3)
    (hok : c.data_format.cls = FormatClass.bgr → 8 < bpp)
    (hlen : c.data.length = c.height * c.width * c.num_components_per_pixel) :
    b.image = Except.ok (some
      { width := c.width, height := c.height, bytesPerLine := 3 * c.width,
        data := (if c.data_format.cls = FormatClass.bgr then swapBGRTriples c.data
          else c.data).map (pixelConvert bpp) }) :=
  image_rgbFamily b c bpp hb hcust hbpp hcls hn3 hok hlen

theorem c9_bit_depth_conversion_witness :
    ImageBuffer.image { i := 0, buffer := some rgb16Component }
      = Except.ok (some
        { width := 1, height := 1, bytesPerLine := 3, data := [4, 0, 255] }) := by
  have h := c9_bit_depth_conversion { i := 0, buffer := some rgb16Component }
    rgb16Component 16 rfl rfl rfl (Or.inl rfl) (fun _ => rfl)
    (fun hh => absurd hh (by decide)) (by decide)
  rw [h]
  decide

/-- C10: constructing an `ImageReaderThread` resets the process-wide
pool counter to zero whatever it was — outstanding handles from an
earlier run included — and a subsequent `release()` of such a stale
handle, operating on the freshly reset counter, trips the decrement
assertion. -/
theorem c10_init_resets_pool (poolBefore : Int) (b : ImageBuffer) (comp : Component)
    (_hbuf : b.buffer = some comp) :
    ImageReaderThread.initPool poolBefore = 0 ∧
    (∃ e, b.release (ImageReaderThread.initPool poolBefore) = Except.error e) := by
  refine ⟨rfl, ⟨"AssertionError: buffers_in_use greater than 0", ?_⟩⟩
  simp [ImageBuffer.release, ImageReaderThread.initPool, _BufferPool.reset,
    _BufferPool.decrement]

theorem c10_init_resets_pool_witness :
    ImageReaderThread.initPool 3 = 0 ∧
    (∃ e, ImageBuffer.release { i := 7, buffer := some bgrComponent }
      (ImageReaderThread.initPool 3) = Except.error e) :=
  c10_init_resets_pool 3 { i := 7, buffer := some bgrComponent } bgrComponent rfl
